import Mathlib

/-!
# pokidexcli: the command loop and the pagination client of `repl.go`

A shallow embedding of `repl.go`.  The program talks to three things outside
itself: the HTTP server, the JSON decoder and the terminal.  They are modelled as
follows.

* The network is a state `W` that every request may change, together with the
  function `Env.httpGet` that answers a GET.  Nothing is assumed about it.
* Standard output is the list of the chunks written, one per `fmt.Print*` call.
* A Go `error` is identified with the text its `Error()` method returns.
* A Go `string` is taken as the sequence of runes a `range` loop reads from it
  (a byte that is not valid UTF-8 reads as U+FFFD).
* `unicode.ToLower` and `unicode.IsSpace` are written out for the runes Go handles
  by explicit code (ASCII, Latin-1) and read from a table parameter beyond them.
* The deferred `res.Body.Close()` has no effect the program observes and is left
  out.
-/

namespace Pokedex

/-- Go `error` value, identified with its message. -/
abbrev GoError := String

/-- Raw bytes of a response body. -/
abbrev Bytes := List UInt8

/-- The `config` struct: the two pagination cursors. A nil `*string` is `none`. -/
structure config where
  NextLocationAreasURL : String
  PrevLocationAreasURL : Option String
deriving DecidableEq, Repr

/-- One element of `locationAreaResponse.Results`. -/
structure resultEntry where
  Name : String
  URL : String
deriving DecidableEq, Repr

/-- The `locationAreaResponse` struct: the decoded page envelope. -/
structure locationAreaResponse where
  Count : Int
  Next : String
  Previous : Option String
  Results : List resultEntry
deriving DecidableEq, Repr

/-- An `*http.Response` as far as the program looks at it: what
`io.ReadAll(res.Body)` returns for it. -/
structure Response where
  Body : Except GoError Bytes

/-- The part of Go's `unicode` tables that the package reads for runes outside
the ranges it handles by explicit code: the lower-case mapping
(`unicode.CaseRanges`), `unicode.White_Space` and `unicode.Upper`. -/
structure UnicodeTables where
  toLower : Char → Char
  whiteSpace : Char → Bool
  upper : Char → Bool

/-- The keys of the map literal in `getCommands`, in the order written. -/
def commandNames : List String := ["help", "exit", "map", "mapb"]

/-- Everything outside the program. `httpGet w url` is `http.Get(url)` issued in
network state `w`; `unmarshal` is `json.Unmarshal` into a fresh
`locationAreaResponse`; `rangeOrder w` is the order in which a `range` over the
command map visits its keys (Go leaves it unspecified, so it is any permutation). -/
structure Env (W : Type) where
  httpGet : W → String → W × Except GoError Response
  unmarshal : Bytes → Except GoError locationAreaResponse
  rangeOrder : W → W × List String
  rangeOrder_perm : ∀ w, List.Perm (rangeOrder w).2 commandNames
  tables : UnicodeTables

/-- What one call of a command callback did: the network state and the session it
leaves, the URLs it passed to `http.Get`, the chunks it wrote to standard output,
the `error` it returned, and the status passed to `os.Exit` if it ended the
process. -/
structure Run (W : Type) where
  world : W
  cfg : config
  requests : List String
  stdout : List String
  err : Option GoError
  exited : Option Int

/-- Chunk written by `fmt.Println(s)`. -/
def println (s : String) : String := s ++ "\n"

/-- The loop `for _, result := range response.Results { fmt.Println(result.Name) }`. -/
def printNames (results : List resultEntry) : List String :=
  results.map (fun result => println result.Name)

/-- Callback for the `map` command (`commandMap`, repl.go 91-117). -/
def commandMap {W : Type} (env : Env W) (w : W) (cfg : config) : Run W :=
  match env.httpGet w cfg.NextLocationAreasURL with
  | (w1, .error err) => ⟨w1, cfg, [cfg.NextLocationAreasURL], [], some err, none⟩
  | (w1, .ok res) =>
    match res.Body with
    | .error err => ⟨w1, cfg, [cfg.NextLocationAreasURL], [], some err, none⟩
    | .ok body =>
      match env.unmarshal body with
      | .error err => ⟨w1, cfg, [cfg.NextLocationAreasURL], [], some err, none⟩
      | .ok response =>
        ⟨w1, ⟨response.Next, response.Previous⟩, [cfg.NextLocationAreasURL],
          printNames response.Results, none, none⟩

/-- Callback for the `mapb` command (`commandMapb`, repl.go 120-149). -/
def commandMapb {W : Type} (env : Env W) (w : W) (cfg : config) : Run W :=
  match cfg.PrevLocationAreasURL with
  | none => ⟨w, cfg, [], [], some "you're on the first page", none⟩
  | some prev =>
    match env.httpGet w prev with
    | (w1, .error err) => ⟨w1, cfg, [prev], [], some err, none⟩
    | (w1, .ok res) =>
      match res.Body with
      | .error err => ⟨w1, cfg, [prev], [], some err, none⟩
      | .ok body =>
        match env.unmarshal body with
        | .error err => ⟨w1, cfg, [prev], [], some err, none⟩
        | .ok response =>
          ⟨w1, ⟨response.Next, response.Previous⟩, [prev],
            printNames response.Results, none, none⟩

/-! ## The pieces of Go's standard library that `cleanInput` calls -/

/-- Go's `unicode.ToLower(r)`: for `r <= unicode.MaxASCII` the explicit
`if 'A' <= r && r <= 'Z' { r += 'a' - 'A' }`, otherwise the case tables. -/
def unicodeToLower (U : UnicodeTables) (r : Char) : Char :=
  if r.toNat ≤ 0x7F then
    if 'A'.toNat ≤ r.toNat ∧ r.toNat ≤ 'Z'.toNat then Char.ofNat (r.toNat + ('a'.toNat - 'A'.toNat))
    else r
  else U.toLower r

/-- Go's `unicode.IsSpace(r)`: for `r <= unicode.MaxLatin1` the explicit switch
over tab, line feed, vertical tab, form feed, carriage return, space, U+0085 and
U+00A0, otherwise the `White_Space` table. -/
def unicodeIsSpace (U : UnicodeTables) (r : Char) : Bool :=
  if r.toNat ≤ 0xFF then
    decide (r.toNat = 0x09 ∨ r.toNat = 0x0A ∨ r.toNat = 0x0B ∨ r.toNat = 0x0C ∨
      r.toNat = 0x0D ∨ r.toNat = 0x20 ∨ r.toNat = 0x85 ∨ r.toNat = 0xA0)
  else U.whiteSpace r

/-- Go's `unicode.IsUpper(r)`: for `r <= unicode.MaxLatin1` the upper-case letters
of Latin-1 (A-Z, U+00C0-U+00D6, U+00D8-U+00DE), otherwise the `Upper` table. The
program never calls it; it states what an upper-case letter is. -/
def unicodeIsUpper (U : UnicodeTables) (r : Char) : Bool :=
  if r.toNat ≤ 0xFF then
    decide ((0x41 ≤ r.toNat ∧ r.toNat ≤ 0x5A) ∨ (0xC0 ≤ r.toNat ∧ r.toNat ≤ 0xD6) ∨
      (0xD8 ≤ r.toNat ∧ r.toNat ≤ 0xDE))
  else U.upper r

/-- Go's `strings.ToLower(s)`: every rune of `s` mapped through `unicode.ToLower`. -/
def stringsToLower (U : UnicodeTables) (s : String) : String :=
  ⟨s.data.map (unicodeToLower U)⟩

/-- The scanning loop of Go's `strings.FieldsFunc`. `cur` is the open span: `none`
while `start < 0`, `some tok` with the runes read since `start` otherwise; `spans`
are the spans closed so far. A rune for which `f` holds closes the open span, any
other rune opens one or extends it, and the end of the string closes it. -/
def fieldsLoop (f : Char → Bool) : List Char → Option (List Char) → List (List Char) →
    List (List Char)
  | [], none, spans => spans
  | [], some tok, spans => spans ++ [tok]
  | r :: rest, none, spans =>
    if f r then fieldsLoop f rest none spans
    else fieldsLoop f rest (some [r]) spans
  | r :: rest, some tok, spans =>
    if f r then fieldsLoop f rest none (spans ++ [tok])
    else fieldsLoop f rest (some (tok ++ [r])) spans

/-- Go's `strings.Fields(s)`: `FieldsFunc(s, unicode.IsSpace)`. -/
def stringsFields (U : UnicodeTables) (s : String) : List String :=
  (fieldsLoop (unicodeIsSpace U) s.data none []).map String.mk

/-- Input cleaning function (`cleanInput`, repl.go 171-175). -/
def cleanInput (U : UnicodeTables) (text : String) : List String :=
  let output := stringsToLower U text
  let words := stringsFields U output
  words

/-- The tokens as the specification words them: the line is lower-cased and split
on runs of whitespace, that is, cut at every whitespace rune, the empty pieces
between neighbouring whitespace runes dropped. Compared with `cleanInput` above. -/
def normalizedTokens (U : UnicodeTables) (text : String) : List String :=
  (((text.data.map (unicodeToLower U)).splitOnP (unicodeIsSpace U)).filter
    (fun piece => !piece.isEmpty)).map String.mk

/-! ## The command table and the loop -/

/-- The `cliCommand` struct. -/
structure cliCommand (W : Type) where
  name : String
  description : String
  callback : W → config → Run W

/-- The `name` and `description` fields of the entries of the map literal in
`getCommands`, by key. `commandHelp` reads only these two fields, so it is stated
over this table; `getCommands` below adds the callbacks. -/
def commandInfo : List (String × String × String) :=
  [("help", "help", "Displays a help message"),
   ("exit", "exit", "Exit the Pokedex"),
   ("map", "map", "Displays the next 20 location areas"),
   ("mapb", "mapb", "Displays the previous 20 location areas")]

/-- Callback for the `help` command (`commandHelp`, repl.go 152-161). The `range`
over the command map visits the keys in the order `env.rangeOrder` gives. -/
def commandHelp {W : Type} (env : Env W) (w : W) (cfg : config) : Run W :=
  let visit := env.rangeOrder w
  let lines := visit.2.filterMap (fun key =>
    (commandInfo.lookup key).map (fun cmd => cmd.1 ++ ": " ++ cmd.2 ++ "\n"))
  ⟨visit.1, cfg, [],
    [println "\nWelcome to the Pokedex!", println "Usage:", println ""] ++ lines ++ [println ""],
    none, none⟩

/-- Callback for the `exit` command (`commandExit`, repl.go 164-168): `os.Exit(0)`
ends the process, the `return nil` after it is never reached. -/
def commandExit {W : Type} (w : W) (cfg : config) : Run W :=
  ⟨w, cfg, [], [println "Closing the Pokedex... Goodbye!"], none, some 0⟩

/-- The map of all available commands (`getCommands`, repl.go 54-77), as the list
of its key-value pairs; the keys are distinct, so looking a key up in the list is
indexing the map. -/
def getCommands {W : Type} (env : Env W) : List (String × cliCommand W) :=
  [("help", ⟨"help", "Displays a help message", commandHelp env⟩),
   ("exit", ⟨"exit", "Exit the Pokedex", commandExit⟩),
   ("map", ⟨"map", "Displays the next 20 location areas", commandMap env⟩),
   ("mapb", ⟨"mapb", "Displays the previous 20 location areas", commandMapb env⟩)]

/-- What one pass through the loop of `startRepl` did: the command whose callback
it invoked, if any, and the effects of the whole pass. -/
structure Step (W : Type) where
  invoked : Option (cliCommand W)
  run : Run W

/-- The text of the prompt. -/
def prompt : String := "Pokedex > "

/-- One pass through the body of the `for` loop of `startRepl` (repl.go 23-42),
`reader.Text()` having returned `text`. The `error` a callback returns is printed
on a line of its own; a callback that ended the process returns nothing. -/
def startReplStep {W : Type} (env : Env W) (w : W) (cfg : config) (text : String) : Step W :=
  let words := cleanInput env.tables text
  match words with
  | [] => ⟨none, ⟨w, cfg, [], [prompt], none, none⟩⟩
  | commandName :: _ =>
    match (getCommands env).lookup commandName with
    | none => ⟨none, ⟨w, cfg, [], [prompt, println "Unknown command"], none, none⟩⟩
    | some command =>
      let r := command.callback w cfg
      match r.exited, r.err with
      | some code, _ => ⟨some command, ⟨r.world, r.cfg, r.requests, prompt :: r.stdout, r.err, some code⟩⟩
      | none, some err =>
        ⟨some command, ⟨r.world, r.cfg, r.requests, prompt :: (r.stdout ++ [println err]), some err, none⟩⟩
      | none, none => ⟨some command, ⟨r.world, r.cfg, r.requests, prompt :: r.stdout, none, none⟩⟩

/-- Empty tables: no rune beyond Latin-1 is a space or an upper-case letter, no
rune beyond ASCII has a lower-case mapping. They agree with Go's on ASCII text and
are used to run the definitions on it. -/
def plainTables : UnicodeTables := ⟨fun r => r, fun _ => false, fun _ => false⟩

/-- The request/response cycle that both `commandMap` (repl.go 92-107) and
`commandMapb` (repl.go 125-140) run on their URL: `http.Get`, `io.ReadAll`,
`json.Unmarshal`, the first error ending it. It is used to state what a call
fetched; the two callbacks above are written out as in the source. -/
def fetchResult {W : Type} (env : Env W) (w : W) (url : String) :
    Except GoError locationAreaResponse :=
  match (env.httpGet w url).2 with
  | .error err => .error err
  | .ok res =>
    match res.Body with
    | .error err => .error err
    | .ok body => env.unmarshal body

/-- The session and network state after `n` calls of `commandMap` in a row. -/
def mapCalls {W : Type} (env : Env W) : Nat → W → config → W × config
  | 0, w, cfg => (w, cfg)
  | n + 1, w, cfg => mapCalls env n (commandMap env w cfg).world (commandMap env w cfg).cfg

/-! ## Concrete servers -/

/-- First page of the example catalog. -/
def offset0 : String := "https://api.example/locations?offset=0"

/-- Second page of the example catalog. -/
def offset20 : String := "https://api.example/locations?offset=20"

/-- Third page of the example catalog. -/
def offset40 : String := "https://api.example/locations?offset=40"

/-- Envelope of the first page: one item, no previous page. -/
def page0 : locationAreaResponse := ⟨3, offset20, none, [⟨"area-1", "https://api.example/area/1"⟩]⟩

/-- Envelope of the second page. -/
def page20 : locationAreaResponse :=
  ⟨3, offset40, some offset0, [⟨"area-2", "https://api.example/area/2"⟩]⟩

/-- Envelope of the last page: the forward URL is empty. -/
def page40 : locationAreaResponse := ⟨3, "", some offset20, [⟨"area-3", "https://api.example/area/3"⟩]⟩

/-- A decoder for bodies of one byte: byte 0, 20 or 40 stands for the JSON text of
the page of that offset, byte 21 for a second page sent without a `previous` link;
any other body is not JSON. -/
def decodePage (body : Bytes) : Except GoError locationAreaResponse :=
  if body = [0] then .ok page0
  else if body = [20] then .ok page20
  else if body = [40] then .ok page40
  else if body = [21] then .ok ⟨3, offset40, none, [⟨"area-2", "https://api.example/area/2"⟩]⟩
  else .error "invalid character 'x' looking for beginning of value"

/-- A server with the three pages of the example catalog; a request for any other
URL, the empty one included, fails in the transport. -/
def catalogEnv : Env Unit where
  httpGet := fun _ url =>
    if url = offset0 then ((), .ok ⟨.ok [0]⟩)
    else if url = offset20 then ((), .ok ⟨.ok [20]⟩)
    else if url = offset40 then ((), .ok ⟨.ok [40]⟩)
    else ((), .error "unsupported protocol scheme")
  unmarshal := decodePage
  rangeOrder := fun _ => ((), commandNames)
  rangeOrder_perm := fun _ => List.Perm.refl _
  tables := plainTables

/-- A server whose second page comes without a `previous` link. -/
def unlinkedEnv : Env Unit where
  httpGet := fun _ url =>
    if url = offset0 then ((), .ok ⟨.ok [0]⟩)
    else if url = offset20 then ((), .ok ⟨.ok [21]⟩)
    else ((), .error "unsupported protocol scheme")
  unmarshal := decodePage
  rangeOrder := fun _ => ((), commandNames)
  rangeOrder_perm := fun _ => List.Perm.refl _
  tables := plainTables

/-- A server that cannot be reached. -/
def downEnv : Env Unit where
  httpGet := fun _ _ => ((), .error "dial tcp: connection refused")
  unmarshal := decodePage
  rangeOrder := fun _ => ((), commandNames)
  rangeOrder_perm := fun _ => List.Perm.refl _
  tables := plainTables

/-- A fragment of Go's tables around U+1D400 MATHEMATICAL BOLD CAPITAL A: the runes
U+1D400-U+1D419 are in `unicode.Upper` (category Lu), `unicode.CaseRanges` has no
entry for them, so `unicode.ToLower` returns them as they are, and they are not
white space. The other runes beyond Latin-1 are left without a mapping. -/
def mathCapitalTables : UnicodeTables :=
  ⟨fun r => r, fun _ => false, fun r => decide (0x1D400 ≤ r.toNat ∧ r.toNat ≤ 0x1D419)⟩

/-! ## Lemmas on the two callbacks -/

theorem getCommands_info {W : Type} (env : Env W) :
    (getCommands env).map (fun entry => (entry.1, entry.2.name, entry.2.description))
      = commandInfo ∧
    (getCommands env).map (fun entry => entry.1) = commandNames :=
  ⟨rfl, rfl⟩

theorem commandMap_of_ok {W : Type} (env : Env W) (w : W) (cfg : config)
    (e : locationAreaResponse) (h : fetchResult env w cfg.NextLocationAreasURL = .ok e) :
    commandMap env w cfg =
      ⟨(env.httpGet w cfg.NextLocationAreasURL).1, ⟨e.Next, e.Previous⟩,
        [cfg.NextLocationAreasURL], printNames e.Results, none, none⟩ := by
  unfold fetchResult at h
  unfold commandMap
  rcases hg : env.httpGet w cfg.NextLocationAreasURL with ⟨w1, _ | res⟩
  · simp [hg] at h
  · rcases hb : res.Body with _ | body
    · simp [hg, hb] at h
    · simp only [hg, hb] at h ⊢
      simp [h]

theorem commandMap_of_error {W : Type} (env : Env W) (w : W) (cfg : config)
    (e : GoError) (h : fetchResult env w cfg.NextLocationAreasURL = .error e) :
    commandMap env w cfg =
      ⟨(env.httpGet w cfg.NextLocationAreasURL).1, cfg, [cfg.NextLocationAreasURL], [],
        some e, none⟩ := by
  unfold fetchResult at h
  unfold commandMap
  rcases hg : env.httpGet w cfg.NextLocationAreasURL with ⟨w1, err | res⟩
  · simp only [hg] at h ⊢
    simp at h
    simp [h]
  · rcases hb : res.Body with err | body
    · simp only [hg, hb] at h ⊢
      simp at h
      simp [h]
    · simp only [hg, hb] at h ⊢
      simp [h]

theorem commandMapb_eq_commandMap {W : Type} (env : Env W) (w : W) (next u : String) :
    commandMapb env w ⟨next, some u⟩ =
      match fetchResult env w u with
      | .ok _ => commandMap env w ⟨u, some u⟩
      | .error _ => ⟨(commandMap env w ⟨u, some u⟩).world, ⟨next, some u⟩,
          (commandMap env w ⟨u, some u⟩).requests, (commandMap env w ⟨u, some u⟩).stdout,
          (commandMap env w ⟨u, some u⟩).err, (commandMap env w ⟨u, some u⟩).exited⟩ := by
  unfold fetchResult commandMap commandMapb
  rcases hg : env.httpGet w u with ⟨w1, err | res⟩
  · simp [hg]
  · rcases hb : res.Body with err | body
    · simp [hg, hb]
    · rcases hj : env.unmarshal body with err | e
      · simp [hg, hb, hj]
      · simp [hg, hb, hj]

theorem fetchResult_of_steps {W : Type} (env : Env W) (w w1 : W) (url : String)
    (res : Response) (body : Bytes)
    (hget : env.httpGet w url = (w1, .ok res)) (hread : res.Body = .ok body) :
    fetchResult env w url = env.unmarshal body := by
  simp [fetchResult, hget, hread]

theorem commandMap_err_none {W : Type} (env : Env W) (w : W) (cfg : config)
    (h : (commandMap env w cfg).err = none) :
    ∃ e, fetchResult env w cfg.NextLocationAreasURL = .ok e := by
  rcases hf : fetchResult env w cfg.NextLocationAreasURL with err | e
  · rw [commandMap_of_error env w cfg err hf] at h
    simp at h
  · exact ⟨e, rfl⟩

theorem mapCalls_stuck {W : Type} (env : Env W) (cfg : config)
    (hstuck : ∀ w, (commandMap env w cfg).cfg = cfg) :
    ∀ (n : Nat) (w : W), (mapCalls env n w cfg).2 = cfg := by
  intro n
  induction n with
  | zero => intro w; rfl
  | succ n ih =>
    intro w
    simp only [mapCalls]
    rw [hstuck w]
    exact ih _

/-! ## The pagination client -/

/-- C1: when the GET to `NextLocationAreasURL` succeeds, its body is read and decodes
to the envelope `e`, `commandMap` returns no error, requests exactly that URL, sets
`NextLocationAreasURL` to `e.Next` and `PrevLocationAreasURL` to `e.Previous` (nil
exactly when `e.Previous` is null), and prints exactly the names of `e.Results`, each
followed by a newline, in the envelope's order. -/
theorem commandMap_success {W : Type} (env : Env W) (w w1 : W) (cfg : config)
    (res : Response) (body : Bytes) (e : locationAreaResponse)
    (hget : env.httpGet w cfg.NextLocationAreasURL = (w1, .ok res))
    (hread : res.Body = .ok body)
    (hjson : env.unmarshal body = .ok e) :
    (commandMap env w cfg).err = none ∧
    (commandMap env w cfg).exited = none ∧
    (commandMap env w cfg).requests = [cfg.NextLocationAreasURL] ∧
    (commandMap env w cfg).cfg.NextLocationAreasURL = e.Next ∧
    (commandMap env w cfg).cfg.PrevLocationAreasURL = e.Previous ∧
    ((commandMap env w cfg).cfg.PrevLocationAreasURL = none ↔ e.Previous = none) ∧
    (commandMap env w cfg).stdout = e.Results.map (fun item => item.Name ++ "\n") := by
  have hf : fetchResult env w cfg.NextLocationAreasURL = .ok e := by
    rw [fetchResult_of_steps env w w1 _ res body hget hread, hjson]
  rw [commandMap_of_ok env w cfg e hf]
  simp [printNames, println]

/-- C1, the scenario of the specification: from the forward cursor
`https://api.example/locations?offset=0` and no backward cursor, the envelope with
next `...offset=20`, previous null and the one item `area-1` prints `area-1` and
leaves the forward cursor `...offset=20` and no backward cursor. -/
theorem commandMap_success_witness :
    (commandMap catalogEnv () ⟨"https://api.example/locations?offset=0", none⟩).err = none ∧
    (commandMap catalogEnv () ⟨"https://api.example/locations?offset=0", none⟩).stdout
      = ["area-1\n"] ∧
    (commandMap catalogEnv () ⟨"https://api.example/locations?offset=0", none⟩).cfg
      = ⟨"https://api.example/locations?offset=20", none⟩ := by
  have h := commandMap_success catalogEnv () () ⟨offset0, none⟩ ⟨.ok [0]⟩ [0] page0
    rfl rfl rfl
  refine ⟨h.1, h.2.2.2.2.2.2, ?_⟩
  have hn := h.2.2.2.1
  have hp := h.2.2.2.2.1
  exact (config.mk.injEq _ _ _ _).mpr ⟨hn, hp⟩

/-- C2: with a nil `PrevLocationAreasURL`, `commandMapb` returns the error
"you're on the first page", passes no URL to `http.Get`, leaves the network as it
was, prints nothing and leaves both cursors unchanged. -/
theorem commandMapb_first_page {W : Type} (env : Env W) (w : W) (next : String) :
    (commandMapb env w ⟨next, none⟩).err = some "you're on the first page" ∧
    (commandMapb env w ⟨next, none⟩).requests = [] ∧
    (commandMapb env w ⟨next, none⟩).world = w ∧
    (commandMapb env w ⟨next, none⟩).stdout = [] ∧
    (commandMapb env w ⟨next, none⟩).cfg = ⟨next, none⟩ ∧
    (commandMapb env w ⟨next, none⟩).exited = none :=
  ⟨rfl, rfl, rfl, rfl, rfl, rfl⟩

/-- C3 as stated fails: a server answers the first page, then answers the second
page with no `previous` link; both `commandMap` calls succeed and
`PrevLocationAreasURL` is nil after the second. -/
theorem second_call_prev_nil :
    (commandMap unlinkedEnv () ⟨offset0, none⟩).err = none ∧
    (commandMap unlinkedEnv (commandMap unlinkedEnv () ⟨offset0, none⟩).world
      (commandMap unlinkedEnv () ⟨offset0, none⟩).cfg).err = none ∧
    (commandMap unlinkedEnv (commandMap unlinkedEnv () ⟨offset0, none⟩).world
      (commandMap unlinkedEnv () ⟨offset0, none⟩).cfg).cfg.PrevLocationAreasURL = none := by
  decide

/-- C3, amended: after two successful `commandMap` calls in a row from any session,
`PrevLocationAreasURL` is the `previous` field of the envelope the second call
decoded, so it is non-nil exactly when the server sent a previous link with the
second page. -/
theorem second_call_prev_from_envelope {W : Type} (env : Env W) (w : W) (cfg : config)
    (_h1 : (commandMap env w cfg).err = none)
    (h2 : (commandMap env (commandMap env w cfg).world (commandMap env w cfg).cfg).err = none) :
    ∃ e2, fetchResult env (commandMap env w cfg).world
        (commandMap env w cfg).cfg.NextLocationAreasURL = .ok e2 ∧
      (commandMap env (commandMap env w cfg).world
        (commandMap env w cfg).cfg).cfg.PrevLocationAreasURL = e2.Previous ∧
      ((commandMap env (commandMap env w cfg).world
        (commandMap env w cfg).cfg).cfg.PrevLocationAreasURL ≠ none ↔ e2.Previous ≠ none) := by
  obtain ⟨e2, he2⟩ := commandMap_err_none env _ _ h2
  refine ⟨e2, he2, ?_, ?_⟩ <;> rw [commandMap_of_ok env _ _ e2 he2]

/-- C3, amended, on the example catalog: the second page carries a previous link
and the backward cursor is that link. -/
theorem second_call_prev_from_envelope_witness :
    (commandMap catalogEnv () ⟨offset0, none⟩).err = none ∧
    (commandMap catalogEnv () (commandMap catalogEnv () ⟨offset0, none⟩).cfg).err = none ∧
    ∃ e2, fetchResult catalogEnv () offset20 = .ok e2 ∧
      (commandMap catalogEnv () (commandMap catalogEnv () ⟨offset0, none⟩).cfg).cfg.PrevLocationAreasURL
        = e2.Previous ∧
      ((commandMap catalogEnv () (commandMap catalogEnv () ⟨offset0, none⟩).cfg).cfg.PrevLocationAreasURL
        ≠ none ↔ e2.Previous ≠ none) :=
  ⟨by decide, by decide,
    second_call_prev_from_envelope catalogEnv () ⟨offset0, none⟩ (by decide) (by decide)⟩

/-- C4 as stated fails: with the server unreachable, `commandMapb` on the session
(`...offset=40`, `...offset=0`) leaves `NextLocationAreasURL` at `...offset=40`,
while `commandMap` on that session with `NextLocationAreasURL` replaced by
`...offset=0` leaves it at `...offset=0`: the two resulting sessions differ. -/
theorem commandMapb_failure_differs :
    (commandMapb downEnv () ⟨offset40, some offset0⟩).cfg ≠
      (commandMap downEnv () ⟨offset0, some offset0⟩).cfg ∧
    (commandMapb downEnv () ⟨offset40, some offset0⟩).cfg = ⟨offset40, some offset0⟩ ∧
    (commandMap downEnv () ⟨offset0, some offset0⟩).cfg = ⟨offset0, some offset0⟩ := by
  decide

/-- C4, amended: with `PrevLocationAreasURL` present with value `u`, `commandMapb`
and `commandMap` on the session with `NextLocationAreasURL` replaced by `u` request
the same URL `u`, leave the same network state, return the same error or success and
print the same names; when they succeed the same two cursors result, and when they
fail each leaves its own session as it was, so `commandMapb` keeps its own
`NextLocationAreasURL`. -/
theorem commandMapb_as_commandMap {W : Type} (env : Env W) (w : W) (next u : String) :
    (commandMapb env w ⟨next, some u⟩).requests = [u] ∧
    (commandMap env w ⟨u, some u⟩).requests = [u] ∧
    (commandMapb env w ⟨next, some u⟩).world = (commandMap env w ⟨u, some u⟩).world ∧
    (commandMapb env w ⟨next, some u⟩).err = (commandMap env w ⟨u, some u⟩).err ∧
    (commandMapb env w ⟨next, some u⟩).stdout = (commandMap env w ⟨u, some u⟩).stdout ∧
    (commandMapb env w ⟨next, some u⟩).exited = (commandMap env w ⟨u, some u⟩).exited ∧
    ((commandMapb env w ⟨next, some u⟩).err = none →
      (commandMapb env w ⟨next, some u⟩).cfg = (commandMap env w ⟨u, some u⟩).cfg) ∧
    ((commandMapb env w ⟨next, some u⟩).err ≠ none →
      (commandMapb env w ⟨next, some u⟩).cfg = ⟨next, some u⟩ ∧
      (commandMap env w ⟨u, some u⟩).cfg = ⟨u, some u⟩) := by
  rw [commandMapb_eq_commandMap]
  rcases hf : fetchResult env w u with err | e
  · rw [commandMap_of_error env w ⟨u, some u⟩ err hf]
    simp
  · rw [commandMap_of_ok env w ⟨u, some u⟩ e hf]
    simp

/-- C5: a failure of the transport, of reading the body or of decoding it makes
`commandMap` (on `NextLocationAreasURL`) and `commandMapb` (on a present
`PrevLocationAreasURL`) return that very error; whenever either returns an error,
whatever its cause, nothing is printed and both cursors keep their values; a call
that changed the session returned no error; and a call that returned no error
decoded an envelope and wrote both cursors from it. -/
theorem failure_keeps_session {W : Type} (env : Env W) (w : W) (cfg : config) :
    (∀ w1 err, env.httpGet w cfg.NextLocationAreasURL = (w1, .error err) →
      (commandMap env w cfg).err = some err) ∧
    (∀ w1 res err, env.httpGet w cfg.NextLocationAreasURL = (w1, .ok res) →
      res.Body = .error err → (commandMap env w cfg).err = some err) ∧
    (∀ w1 res body err, env.httpGet w cfg.NextLocationAreasURL = (w1, .ok res) →
      res.Body = .ok body → env.unmarshal body = .error err →
      (commandMap env w cfg).err = some err) ∧
    (∀ u w1 err, cfg.PrevLocationAreasURL = some u → env.httpGet w u = (w1, .error err) →
      (commandMapb env w cfg).err = some err) ∧
    (∀ u w1 res err, cfg.PrevLocationAreasURL = some u → env.httpGet w u = (w1, .ok res) →
      res.Body = .error err → (commandMapb env w cfg).err = some err) ∧
    (∀ u w1 res body err, cfg.PrevLocationAreasURL = some u →
      env.httpGet w u = (w1, .ok res) → res.Body = .ok body →
      env.unmarshal body = .error err → (commandMapb env w cfg).err = some err) ∧
    (∀ err, (commandMap env w cfg).err = some err →
      (commandMap env w cfg).cfg = cfg ∧ (commandMap env w cfg).stdout = []) ∧
    (∀ err, (commandMapb env w cfg).err = some err →
      (commandMapb env w cfg).cfg = cfg ∧ (commandMapb env w cfg).stdout = []) ∧
    ((commandMap env w cfg).cfg ≠ cfg → (commandMap env w cfg).err = none) ∧
    ((commandMapb env w cfg).cfg ≠ cfg → (commandMapb env w cfg).err = none) ∧
    ((commandMap env w cfg).err = none →
      ∃ e, fetchResult env w cfg.NextLocationAreasURL = .ok e ∧
        (commandMap env w cfg).cfg = ⟨e.Next, e.Previous⟩) ∧
    ((commandMapb env w cfg).err = none →
      ∃ u e, cfg.PrevLocationAreasURL = some u ∧ fetchResult env w u = .ok e ∧
        (commandMapb env w cfg).cfg = ⟨e.Next, e.Previous⟩) := by
  have hmap : ∀ err, (commandMap env w cfg).err = some err →
      (commandMap env w cfg).cfg = cfg ∧ (commandMap env w cfg).stdout = [] := by
    intro err h
    rcases hf : fetchResult env w cfg.NextLocationAreasURL with e | e
    · rw [commandMap_of_error env w cfg e hf]
      simp
    · rw [commandMap_of_ok env w cfg e hf] at h
      simp at h
  have hmapb : ∀ err, (commandMapb env w cfg).err = some err →
      (commandMapb env w cfg).cfg = cfg ∧ (commandMapb env w cfg).stdout = [] := by
    intro err h
    rcases cfg with ⟨next, _ | u⟩
    · exact ⟨rfl, rfl⟩
    · rw [commandMapb_eq_commandMap] at h ⊢
      rcases hf : fetchResult env w u with e | e
      · simp only [hf]
        rw [commandMap_of_error env w ⟨u, some u⟩ e hf]
        simp
      · simp only [hf] at h
        rw [commandMap_of_ok env w ⟨u, some u⟩ e hf] at h
        simp at h
  refine ⟨?_, ?_, ?_, ?_, ?_, ?_, hmap, hmapb, ?_, ?_, ?_, ?_⟩
  · intro w1 err hg
    simp [commandMap, hg]
  · intro w1 res err hg hb
    simp [commandMap, hg, hb]
  · intro w1 res body err hg hb hj
    simp [commandMap, hg, hb, hj]
  · intro u w1 err hp hg
    simp [commandMapb, hp, hg]
  · intro u w1 res err hp hg hb
    simp [commandMapb, hp, hg, hb]
  · intro u w1 res body err hp hg hb hj
    simp [commandMapb, hp, hg, hb, hj]
  · intro h
    rcases hc : (commandMap env w cfg).err with _ | err
    · rfl
    · exact absurd (hmap err hc).1 h
  · intro h
    rcases hc : (commandMapb env w cfg).err with _ | err
    · rfl
    · exact absurd (hmapb err hc).1 h
  · intro h
    obtain ⟨e, he⟩ := commandMap_err_none env w cfg h
    exact ⟨e, he, by rw [commandMap_of_ok env w cfg e he]⟩
  · intro h
    rcases cfg with ⟨next, _ | u⟩
    · simp [commandMapb] at h
    · rw [commandMapb_eq_commandMap] at h ⊢
      rcases hf : fetchResult env w u with e | e
      · simp only [hf] at h
        rw [commandMap_of_error env w ⟨u, some u⟩ e hf] at h
        simp at h
      · simp only [hf]
        rw [commandMap_of_ok env w ⟨u, some u⟩ e hf]
        exact ⟨u, e, rfl, hf, rfl⟩

/-- C6: let a `commandMap` call succeed on an envelope whose forward URL is empty, and
let the transport refuse a GET of the empty URL (Go's `http.Get("")` fails with
`unsupported protocol scheme`; `commandMap` itself has no check). Then
`NextLocationAreasURL` is the empty string, and after any number of further
`commandMap` calls the session is still the one the successful call left and the next
`commandMap` call requests the empty URL, returns an error and changes nothing. -/
theorem exhausted_catalog {W : Type} (env : Env W) (w : W) (cfg : config)
    (e : locationAreaResponse)
    (hfetch : fetchResult env w cfg.NextLocationAreasURL = .ok e)
    (hempty : e.Next = "")
    (hrefuse : ∀ w0, ∃ err, (env.httpGet w0 "").2 = .error err) :
    (commandMap env w cfg).err = none ∧
    (commandMap env w cfg).cfg.NextLocationAreasURL = "" ∧
    ∀ n : Nat,
      (mapCalls env n (commandMap env w cfg).world (commandMap env w cfg).cfg).2
        = (commandMap env w cfg).cfg ∧
      (commandMap env
        (mapCalls env n (commandMap env w cfg).world (commandMap env w cfg).cfg).1
        (mapCalls env n (commandMap env w cfg).world (commandMap env w cfg).cfg).2).requests
        = [""] ∧
      (commandMap env
        (mapCalls env n (commandMap env w cfg).world (commandMap env w cfg).cfg).1
        (mapCalls env n (commandMap env w cfg).world (commandMap env w cfg).cfg).2).err
        ≠ none ∧
      (commandMap env
        (mapCalls env n (commandMap env w cfg).world (commandMap env w cfg).cfg).1
        (mapCalls env n (commandMap env w cfg).world (commandMap env w cfg).cfg).2).cfg
        = (commandMap env w cfg).cfg := by
  have hfail : ∀ (w0 : W) (prev : Option String),
      (commandMap env w0 ⟨"", prev⟩).err ≠ none ∧
      (commandMap env w0 ⟨"", prev⟩).cfg = ⟨"", prev⟩ ∧
      (commandMap env w0 ⟨"", prev⟩).requests = [""] := by
    intro w0 prev
    obtain ⟨err, herr⟩ := hrefuse w0
    have hf : fetchResult env w0 (config.mk "" prev).NextLocationAreasURL = .error err := by
      simp [fetchResult, herr]
    rw [commandMap_of_error env w0 ⟨"", prev⟩ err hf]
    simp
  rw [commandMap_of_ok env w cfg e hfetch]
  refine ⟨rfl, hempty, ?_⟩
  intro n
  simp only [hempty]
  have hstay := mapCalls_stuck env ⟨"", e.Previous⟩ (fun w0 => (hfail w0 e.Previous).2.1) n
    (env.httpGet w cfg.NextLocationAreasURL).1
  rw [hstay]
  exact ⟨rfl, (hfail _ _).2.2, (hfail _ _).1, (hfail _ _).2.1⟩

/-- C6 on the example catalog: from the last page, whose forward URL is empty. -/
theorem exhausted_catalog_witness :
    fetchResult catalogEnv () offset40 = .ok page40 ∧
    (commandMap catalogEnv () ⟨offset40, some offset20⟩).cfg = ⟨"", some offset20⟩ ∧
    ∀ n : Nat,
      (commandMap catalogEnv ()
        (mapCalls catalogEnv n () ⟨"", some offset20⟩).2).err ≠ none ∧
      (commandMap catalogEnv ()
        (mapCalls catalogEnv n () ⟨"", some offset20⟩).2).cfg = ⟨"", some offset20⟩ := by
  have h := exhausted_catalog catalogEnv () ⟨offset40, some offset20⟩ page40 rfl rfl
    (fun _ => ⟨"unsupported protocol scheme", rfl⟩)
  refine ⟨rfl, rfl, fun n => ?_⟩
  exact ⟨(h.2.2 n).2.2.1, (h.2.2 n).2.2.2⟩

/-! ## Input normalization -/

theorem fieldsLoop_eq_splitOnP (f : Char → Bool) :
    ∀ (l : List Char) (spans : List (List Char)),
      fieldsLoop f l none spans
        = spans ++ (l.splitOnP f).filter (fun piece => !piece.isEmpty) ∧
      ∀ tok : List Char, tok ≠ [] →
        fieldsLoop f l (some tok) spans
          = spans ++ ((l.splitOnP f).modifyHead (fun piece => tok ++ piece)).filter
              (fun piece => !piece.isEmpty) := by
  intro l
  induction l with
  | nil =>
    intro spans
    refine ⟨by simp [fieldsLoop], ?_⟩
    intro tok htok
    cases tok with
    | nil => exact absurd rfl htok
    | cons c cs => simp [fieldsLoop]
  | cons r rest ih =>
    intro spans
    refine ⟨?_, ?_⟩
    · by_cases hr : f r = true
      · simp [fieldsLoop, hr, List.splitOnP_cons, (ih spans).1]
      · have hne : ([r] : List Char) ≠ [] := by simp
        simp only [fieldsLoop, hr, List.splitOnP_cons, if_false, Bool.false_eq_true]
        rw [(ih spans).2 [r] hne]
        rfl
    · intro tok htok
      cases tok with
      | nil => exact absurd rfl htok
      | cons c cs =>
        by_cases hr : f r = true
        · simp [fieldsLoop, hr, List.splitOnP_cons, (ih (spans ++ [c :: cs])).1]
        · have hne : (c :: cs ++ [r] : List Char) ≠ [] := by simp
          simp only [fieldsLoop, hr, List.splitOnP_cons, if_false, Bool.false_eq_true]
          rw [(ih spans).2 (c :: cs ++ [r]) hne]
          cases List.splitOnP f rest with
          | nil => rfl
          | cons piece pieces => simp

theorem splitOnP_piece_clean (f : Char → Bool) :
    ∀ (l : List Char), ∀ piece ∈ l.splitOnP f, ∀ c ∈ piece, f c = false := by
  intro l
  induction l with
  | nil => simp
  | cons r rest ih =>
    intro piece hp c hc
    rw [List.splitOnP_cons] at hp
    by_cases hr : f r = true
    · simp only [hr, if_true, List.mem_cons] at hp
      rcases hp with rfl | hp
      · simp at hc
      · exact ih piece hp c hc
    · simp only [hr, if_false, Bool.false_eq_true] at hp
      cases hs : List.splitOnP f rest with
      | nil => simp [hs] at hp
      | cons q qs =>
        rw [hs] at hp ih
        simp only [List.modifyHead_cons, List.mem_cons] at hp
        rcases hp with rfl | hp
        · rcases List.mem_cons.mp hc with rfl | hc
          · simpa using hr
          · exact ih q (List.mem_cons_self _ _) c hc
        · exact ih piece (List.mem_cons_of_mem _ hp) c hc

theorem splitOnP_flatten (f : Char → Bool) :
    ∀ (l : List Char), (l.splitOnP f).flatten = l.filter (fun c => !f c) := by
  intro l
  induction l with
  | nil => simp
  | cons r rest ih =>
    rw [List.splitOnP_cons]
    by_cases hr : f r = true
    · simp [hr, ih]
    · cases hs : List.splitOnP f rest with
      | nil => exact absurd hs (List.splitOnP_ne_nil f rest)
      | cons q qs =>
        rw [hs] at ih
        simp only [hr, if_false, Bool.false_eq_true, List.modifyHead_cons, List.flatten_cons]
        simp only [List.flatten_cons] at ih
        simp [hr, ← ih]

theorem flatten_filter_nonempty (L : List (List Char)) :
    (L.filter (fun piece => !piece.isEmpty)).flatten = L.flatten := by
  induction L with
  | nil => rfl
  | cons piece pieces ih =>
    cases piece with
    | nil => simpa using ih
    | cons c cs => simp [List.filter, ih]

theorem cleanInput_eq_normalizedTokens (U : UnicodeTables) (text : String) :
    cleanInput U text = normalizedTokens U text := by
  simp [cleanInput, normalizedTokens, stringsFields, stringsToLower,
    (fieldsLoop_eq_splitOnP (unicodeIsSpace U) _ []).1]

theorem ascii_lower_not_upper (U : UnicodeTables) (c : Char) (h : c.toNat ≤ 0x7F) :
    unicodeIsUpper U (unicodeToLower U c) = false := by
  unfold unicodeToLower
  rw [if_pos h]
  by_cases hc : 'A'.toNat ≤ c.toNat ∧ c.toNat ≤ 'Z'.toNat
  · rw [if_pos hc]
    have h1 : 65 ≤ c.toNat := hc.1
    have h2 : c.toNat ≤ 90 := hc.2
    generalize c.toNat = n at h1 h2
    interval_cases n <;> rfl
  · rw [if_neg hc]
    have h1 : ¬ (65 ≤ c.toNat ∧ c.toNat ≤ 90) := hc
    unfold unicodeIsUpper
    have h2 : c.toNat ≤ 0xFF := by omega
    rw [if_pos h2]
    simp only [decide_eq_false_iff_not]
    omega

theorem ascii_space_lower (U : UnicodeTables) (c : Char) (h : c.toNat ≤ 0x7F)
    (hs : unicodeIsSpace U c = true) : unicodeToLower U c = c := by
  unfold unicodeToLower
  rw [if_pos h]
  unfold unicodeIsSpace at hs
  have h2 : c.toNat ≤ 0xFF := by omega
  rw [if_pos h2] at hs
  simp only [decide_eq_true_eq] at hs
  have hc : ¬ ('A'.toNat ≤ c.toNat ∧ c.toNat ≤ 'Z'.toNat) := by
    intro hc
    have h3 : 65 ≤ c.toNat := hc.1
    have h4 : c.toNat ≤ 90 := hc.2
    omega
  rw [if_neg hc]

theorem fieldsLoop_blank (f : Char → Bool) :
    ∀ (l : List Char) (spans : List (List Char)), (∀ c ∈ l, f c = true) →
      fieldsLoop f l none spans = spans := by
  intro l
  induction l with
  | nil => intro spans _; rfl
  | cons r rest ih =>
    intro spans h
    have hr : f r = true := h r (List.mem_cons_self _ _)
    simp only [fieldsLoop, hr, if_true]
    exact ih spans (fun c hc => h c (List.mem_cons_of_mem _ hc))

theorem lookup_unknown {W : Type} (env : Env W) (tok : String) (h : tok ∉ commandNames) :
    (getCommands env).lookup tok = none := by
  simp only [commandNames, List.mem_cons, List.mem_singleton, List.not_mem_nil, or_false,
    not_or] at h
  obtain ⟨h1, h2, h3, h4⟩ := h
  have e1 : (tok == "help") = false := by simpa using h1
  have e2 : (tok == "exit") = false := by simpa using h2
  have e3 : (tok == "map") = false := by simpa using h3
  have e4 : (tok == "mapb") = false := by simpa using h4
  simp only [getCommands, List.lookup, e1, e2, e3, e4]

theorem plainTables_space_lower (c : Char) (hs : unicodeIsSpace plainTables c = true) :
    unicodeToLower plainTables c = c := by
  by_cases h : c.toNat ≤ 0x7F
  · exact ascii_space_lower plainTables c h hs
  · unfold unicodeToLower
    rw [if_neg h]
    rfl

/-- C7 as stated fails on "no upper-case letter": the one-rune line U+1D400
(MATHEMATICAL BOLD CAPITAL A) is an upper-case letter that Go's `unicode.ToLower`
leaves as it is, so `cleanInput` returns it as a token. -/
theorem cleanInput_keeps_unmapped_capital :
    cleanInput mathCapitalTables (String.singleton (Char.ofNat 0x1D400))
      = [String.singleton (Char.ofNat 0x1D400)] ∧
    ∃ t ∈ cleanInput mathCapitalTables (String.singleton (Char.ofNat 0x1D400)),
      ∃ c ∈ t.data, unicodeIsUpper mathCapitalTables c = true := by
  refine ⟨by decide, String.singleton (Char.ofNat 0x1D400), by decide, Char.ofNat 0x1D400, ?_, ?_⟩
  · decide
  · decide

/-- C7, amended: `cleanInput text` is the line lower-cased and split on runs of
whitespace (`normalizedTokens`); every token is non-empty and free of whitespace;
every rune of a token is the lower-case mapping of a rune of the line, and is not an
upper-case letter when that rune of the line is ASCII; the tokens, concatenated in
order, are the lower-cased line with its whitespace removed; and `"  MAP  "` and
`"map"` both give the one token `map`. -/
theorem cleanInput_tokens (U : UnicodeTables) (text : String) :
    cleanInput U text = normalizedTokens U text ∧
    (∀ t ∈ cleanInput U text, t ≠ "" ∧
      ∀ c ∈ t.data, unicodeIsSpace U c = false ∧
        ∃ c0 ∈ text.data, c = unicodeToLower U c0 ∧
          (c0.toNat ≤ 0x7F → unicodeIsUpper U c = false)) ∧
    String.join (cleanInput U text)
      = ⟨(stringsToLower U text).data.filter (fun c => !unicodeIsSpace U c)⟩ ∧
    cleanInput U "  MAP  " = ["map"] ∧ cleanInput U "map" = ["map"] := by
  have hcat : ((cleanInput U text).map String.data).flatten
      = (text.data.map (unicodeToLower U)).filter (fun c => !unicodeIsSpace U c) := by
    rw [cleanInput_eq_normalizedTokens]
    simp only [normalizedTokens, List.map_map]
    have hid : (String.data ∘ String.mk) = (id : List Char → List Char) := rfl
    rw [hid, List.map_id, flatten_filter_nonempty, splitOnP_flatten]
  refine ⟨cleanInput_eq_normalizedTokens U text, ?_, ?_, rfl, rfl⟩
  · intro t ht
    have ht0 := ht
    rw [cleanInput_eq_normalizedTokens] at ht
    simp only [normalizedTokens, List.mem_map, List.mem_filter] at ht
    obtain ⟨piece, ⟨hpiece, hne⟩, rfl⟩ := ht
    refine ⟨?_, ?_⟩
    · intro h
      have hd : piece = [] := congrArg String.data h
      simp [hd] at hne
    · intro c hc
      refine ⟨splitOnP_piece_clean (unicodeIsSpace U) _ piece hpiece c hc, ?_⟩
      have hmem : c ∈ ((cleanInput U text).map String.data).flatten :=
        List.mem_flatten.mpr ⟨piece, List.mem_map.mpr ⟨String.mk piece, ht0, rfl⟩, hc⟩
      rw [hcat] at hmem
      obtain ⟨c0, hc0, rfl⟩ := List.mem_map.mp (List.mem_filter.mp hmem).1
      exact ⟨c0, hc0, rfl, ascii_lower_not_upper U c0⟩
  · rw [String.join_eq, hcat]
    rfl

/-! ## The command loop -/

/-- C8: when the first token of the cleaned line is none of `help`, `exit`, `map`,
`mapb`, one pass of the loop invokes no callback, passes no URL to `http.Get`,
leaves the network and both cursors as they were, and writes the prompt followed by
the line `Unknown command` and nothing else, so exactly one such notice. -/
theorem unknown_command {W : Type} (env : Env W) (w : W) (cfg : config) (text tok : String)
    (rest : List String)
    (hwords : cleanInput env.tables text = tok :: rest)
    (hunknown : tok ∉ commandNames) :
    (startReplStep env w cfg text).invoked = none ∧
    (startReplStep env w cfg text).run.requests = [] ∧
    (startReplStep env w cfg text).run.world = w ∧
    (startReplStep env w cfg text).run.cfg = cfg ∧
    (startReplStep env w cfg text).run.stdout = ["Pokedex > ", "Unknown command\n"] ∧
    (startReplStep env w cfg text).run.stdout.count "Unknown command\n" = 1 ∧
    (startReplStep env w cfg text).run.err = none ∧
    (startReplStep env w cfg text).run.exited = none := by
  have hstep : startReplStep env w cfg text
      = ⟨none, ⟨w, cfg, [], [prompt, println "Unknown command"], none, none⟩⟩ := by
    simp only [startReplStep, hwords, lookup_unknown env tok hunknown]
  rw [hstep]
  refine ⟨rfl, rfl, rfl, rfl, rfl, ?_, rfl, rfl⟩
  show List.count "Unknown command\n" [prompt, println "Unknown command"] = 1
  decide

/-- C8 on the line `fly`, with the session at the second page of the example
catalog. -/
theorem unknown_command_witness :
    cleanInput catalogEnv.tables "fly" = ["fly"] ∧ "fly" ∉ commandNames ∧
    (startReplStep catalogEnv () ⟨offset40, some offset0⟩ "fly").invoked = none ∧
    (startReplStep catalogEnv () ⟨offset40, some offset0⟩ "fly").run.requests = [] ∧
    (startReplStep catalogEnv () ⟨offset40, some offset0⟩ "fly").run.cfg
      = ⟨offset40, some offset0⟩ ∧
    (startReplStep catalogEnv () ⟨offset40, some offset0⟩ "fly").run.stdout
      = ["Pokedex > ", "Unknown command\n"] := by
  have h := unknown_command catalogEnv () ⟨offset40, some offset0⟩ "fly" "fly" []
    (by decide) (by decide)
  exact ⟨by decide, by decide, h.1, h.2.1, h.2.2.2.1, h.2.2.2.2.1⟩

/-- C9: for a line that is empty or has only whitespace runes, whitespace runes being
their own lower-case mapping (as they are in Go's tables, none of them has a case
mapping), `cleanInput` returns the empty list, and one pass of the loop invokes no
callback, passes no URL to `http.Get`, writes the prompt and nothing else (no error,
no `Unknown command` notice) and leaves the network and the session as they were. -/
theorem blank_line {W : Type} (env : Env W) (w : W) (cfg : config) (text : String)
    (hblank : ∀ c ∈ text.data, unicodeIsSpace env.tables c = true)
    (htables : ∀ c, unicodeIsSpace env.tables c = true → unicodeToLower env.tables c = c) :
    cleanInput env.tables text = [] ∧
    (startReplStep env w cfg text).invoked = none ∧
    (startReplStep env w cfg text).run.requests = [] ∧
    (startReplStep env w cfg text).run.world = w ∧
    (startReplStep env w cfg text).run.cfg = cfg ∧
    (startReplStep env w cfg text).run.stdout = ["Pokedex > "] ∧
    (startReplStep env w cfg text).run.err = none ∧
    (startReplStep env w cfg text).run.exited = none := by
  have hwords : cleanInput env.tables text = [] := by
    simp only [cleanInput, stringsFields, stringsToLower]
    rw [fieldsLoop_blank]
    · rfl
    · intro c hc
      obtain ⟨c0, hc0, rfl⟩ := List.mem_map.mp hc
      rw [htables c0 (hblank c0 hc0)]
      exact hblank c0 hc0
  have hstep : startReplStep env w cfg text = ⟨none, ⟨w, cfg, [], [prompt], none, none⟩⟩ := by
    simp only [startReplStep, hwords]
  rw [hstep]
  exact ⟨hwords, rfl, rfl, rfl, rfl, rfl, rfl, rfl⟩

/-- C9 on the empty line and on a line of blanks and a tab. -/
theorem blank_line_witness :
    (cleanInput catalogEnv.tables "" = [] ∧
      (startReplStep catalogEnv () ⟨offset0, none⟩ "").run.stdout = ["Pokedex > "]) ∧
    (cleanInput catalogEnv.tables "  \t " = [] ∧
      (startReplStep catalogEnv () ⟨offset0, none⟩ "  \t ").invoked = none ∧
      (startReplStep catalogEnv () ⟨offset0, none⟩ "  \t ").run.cfg = ⟨offset0, none⟩ ∧
      (startReplStep catalogEnv () ⟨offset0, none⟩ "  \t ").run.stdout = ["Pokedex > "]) := by
  have h0 := blank_line catalogEnv () ⟨offset0, none⟩ "" (by decide)
    plainTables_space_lower
  have h1 := blank_line catalogEnv () ⟨offset0, none⟩ "  \t " (by decide)
    plainTables_space_lower
  exact ⟨⟨h0.1, h0.2.2.2.2.2.1⟩, h1.1, h1.2.1, h1.2.2.2.2.1, h1.2.2.2.2.2.1⟩

/-- C10: one pass of the loop is determined by the first token of the cleaned line.
Two lines with the same first token (or both without one) give the same pass. The
callback invoked is the entry of `getCommands` under that first token, none when the
table has no such entry or the line has no token. When the table has the entry
`command`, the pass is the call `command.callback` on the network state and the
session the pass was given: it leaves the network state and the session that call
leaves, requests the URLs that call requests, ends the process iff that call does,
carries the error that call returns, and writes the prompt, then what that call
writes, then the returned error on a line of its own if the call returned one
without ending the process. No token after the first occurs in any of this. -/
theorem dispatch_by_first_token {W : Type} (env : Env W) (w : W) (cfg : config)
    (line1 line2 : String)
    (h : (cleanInput env.tables line1).head? = (cleanInput env.tables line2).head?) :
    startReplStep env w cfg line1 = startReplStep env w cfg line2 ∧
    (startReplStep env w cfg line1).invoked
      = (cleanInput env.tables line1).head?.bind (fun tok => (getCommands env).lookup tok) ∧
    ∀ (tok : String) (command : cliCommand W),
      (cleanInput env.tables line1).head? = some tok →
      (getCommands env).lookup tok = some command →
      (startReplStep env w cfg line1).invoked = some command ∧
      (startReplStep env w cfg line2).invoked = some command ∧
      (startReplStep env w cfg line1).run.world = (command.callback w cfg).world ∧
      (startReplStep env w cfg line1).run.cfg = (command.callback w cfg).cfg ∧
      (startReplStep env w cfg line1).run.requests = (command.callback w cfg).requests ∧
      (startReplStep env w cfg line1).run.err = (command.callback w cfg).err ∧
      (startReplStep env w cfg line1).run.exited = (command.callback w cfg).exited ∧
      (startReplStep env w cfg line1).run.stdout
        = "Pokedex > " :: ((command.callback w cfg).stdout ++
            match (command.callback w cfg).exited, (command.callback w cfg).err with
            | none, some err => [err ++ "\n"]
            | _, _ => []) := by
  have hsame : startReplStep env w cfg line1 = startReplStep env w cfg line2 := by
    unfold startReplStep
    rcases h1 : cleanInput env.tables line1 with _ | ⟨t1, r1⟩ <;>
      rcases h2 : cleanInput env.tables line2 with _ | ⟨t2, r2⟩ <;>
      simp only [h1, h2, List.head?_nil, List.head?_cons, reduceCtorEq, Option.some.injEq] at h
    · rfl
    · subst h
      rfl
  refine ⟨hsame, ?_, ?_⟩
  · unfold startReplStep
    rcases h1 : cleanInput env.tables line1 with _ | ⟨t1, r1⟩
    · rfl
    · simp only [List.head?_cons, Option.some_bind]
      rcases hl : (getCommands env).lookup t1 with _ | command
      · rfl
      · simp only
        rcases he : (command.callback w cfg).exited with _ | code <;>
          rcases hr : (command.callback w cfg).err with _ | err <;> rfl
  · intro tok command htok hlook
    rw [← hsame]
    unfold startReplStep
    rcases h1 : cleanInput env.tables line1 with _ | ⟨t1, r1⟩
    · simp [h1] at htok
    · simp only [h1, List.head?_cons, Option.some.injEq] at htok
      subst htok
      simp only [hlook]
      rcases he : (command.callback w cfg).exited with _ | code <;>
        rcases hr : (command.callback w cfg).err with _ | err <;>
        simp [prompt, println]

/-- C10 on the lines `"  MAP  "`, `"map"` and `"map extra args"` with the session at
the first page of the example catalog: all three give the same pass, which invokes
the `map` entry, and the pass is the call of `commandMap` on that session: it
requests `...offset=0`, prints `area-1` after the prompt and leaves the cursors
(`...offset=20`, nil). -/
theorem dispatch_by_first_token_witness :
    (cleanInput catalogEnv.tables "  MAP  ").head? = some "map" ∧
    (cleanInput catalogEnv.tables "map").head? = some "map" ∧
    (cleanInput catalogEnv.tables "map extra args").head? = some "map" ∧
    startReplStep catalogEnv () ⟨offset0, none⟩ "  MAP  "
      = startReplStep catalogEnv () ⟨offset0, none⟩ "map" ∧
    startReplStep catalogEnv () ⟨offset0, none⟩ "map extra args"
      = startReplStep catalogEnv () ⟨offset0, none⟩ "map" ∧
    (startReplStep catalogEnv () ⟨offset0, none⟩ "map extra args").invoked
      = some ⟨"map", "Displays the next 20 location areas", commandMap catalogEnv⟩ ∧
    (startReplStep catalogEnv () ⟨offset0, none⟩ "map extra args").run.cfg
      = (commandMap catalogEnv () ⟨offset0, none⟩).cfg ∧
    (startReplStep catalogEnv () ⟨offset0, none⟩ "map extra args").run.requests
      = (commandMap catalogEnv () ⟨offset0, none⟩).requests ∧
    (startReplStep catalogEnv () ⟨offset0, none⟩ "map extra args").run.cfg
      = ⟨offset20, none⟩ ∧
    (startReplStep catalogEnv () ⟨offset0, none⟩ "map extra args").run.requests
      = ["https://api.example/locations?offset=0"] ∧
    (startReplStep catalogEnv () ⟨offset0, none⟩ "map extra args").run.stdout
      = ["Pokedex > ", "area-1\n"] ∧
    (startReplStep catalogEnv () ⟨offset0, none⟩ "  MAP  ").run.stdout
      = ["Pokedex > ", "area-1\n"] := by
  have h1 := dispatch_by_first_token catalogEnv () ⟨offset0, none⟩ "  MAP  " "map" (by decide)
  have h2 := dispatch_by_first_token catalogEnv () ⟨offset0, none⟩ "map extra args" "map"
    (by decide)
  have h3 := h2.2.2 "map" ⟨"map", "Displays the next 20 location areas", commandMap catalogEnv⟩
    (by decide) rfl
  refine ⟨by decide, by decide, by decide, h1.1, h2.1, h2.2.1, h3.2.2.2.1, h3.2.2.2.2.1,
    by decide, by decide, by decide, by decide⟩

/-! ## Further properties of the callbacks -/

/-- X1: `commandHelp` passes no URL to `http.Get`, leaves the session as it was,
returns no error, and writes the heading, then one line `name: description` for each
of the four commands, in the order the `range` over the map visits them, then an
empty line. -/
theorem commandHelp_lists_commands {W : Type} (env : Env W) (w : W) (cfg : config) :
    (commandHelp env w cfg).requests = [] ∧
    (commandHelp env w cfg).cfg = cfg ∧
    (commandHelp env w cfg).err = none ∧
    (commandHelp env w cfg).exited = none ∧
    ∃ lines : List String,
      List.Perm lines
        ["help: Displays a help message\n", "exit: Exit the Pokedex\n",
          "map: Displays the next 20 location areas\n",
          "mapb: Displays the previous 20 location areas\n"] ∧
      (commandHelp env w cfg).stdout
        = ["\nWelcome to the Pokedex!\n", "Usage:\n", "\n"] ++ lines ++ ["\n"] := by
  refine ⟨rfl, rfl, rfl, rfl, _, ?_, rfl⟩
  exact List.Perm.filterMap _ (env.rangeOrder_perm w)

/-- X2: `commandExit` writes its farewell line and ends the process with status 0
without touching the session or the network, and the line `exit` reaches it: that
pass of the loop ends the process with status 0. -/
theorem commandExit_ends_process {W : Type} (env : Env W) (w : W) (cfg : config) :
    (commandExit w cfg).exited = some 0 ∧
    (commandExit w cfg).stdout = ["Closing the Pokedex... Goodbye!\n"] ∧
    (commandExit w cfg).cfg = cfg ∧
    (commandExit w cfg).requests = [] ∧
    (startReplStep env w cfg "exit").run.exited = some 0 ∧
    (startReplStep env w cfg "exit").run.stdout
      = ["Pokedex > ", "Closing the Pokedex... Goodbye!\n"] ∧
    (startReplStep env w cfg "exit").run.cfg = cfg :=
  ⟨rfl, rfl, rfl, rfl, rfl, rfl, rfl⟩

/-- X3: the second scenario of the specification on the example catalog. After the
first `map`, a second `map` sets the backward cursor to `...offset=0`, and a `mapb`
after it requests `...offset=0`, succeeds, prints `area-1` and leaves the cursors
(`...offset=20`, nil). -/
theorem map_map_mapb_scenario :
    (mapCalls catalogEnv 2 () ⟨offset0, none⟩).2 = ⟨offset40, some offset0⟩ ∧
    (commandMapb catalogEnv () (mapCalls catalogEnv 2 () ⟨offset0, none⟩).2).err = none ∧
    (commandMapb catalogEnv () (mapCalls catalogEnv 2 () ⟨offset0, none⟩).2).requests
      = ["https://api.example/locations?offset=0"] ∧
    (commandMapb catalogEnv () (mapCalls catalogEnv 2 () ⟨offset0, none⟩).2).stdout
      = ["area-1\n"] ∧
    (commandMapb catalogEnv () (mapCalls catalogEnv 2 () ⟨offset0, none⟩).2).cfg
      = ⟨offset20, none⟩ := by
  decide

end Pokedex
